import Mathlib

/-!
Verification of the LoopGuard follow-up lifecycle manager.

Shallow embedding of the domain entities and application services of the
follow-up tracking backend (domain/entities/followup.py, patient.py,
application/services/...). Status, priority and action-type enumerations are
string-valued in the source (Python `str` enums whose members compare equal to
their string values, stored in dictionaries keyed by those values), so they are
modelled as `String`. Timestamps (`datetime`) are modelled as `Int` epoch days:
the only temporal operations in the source are comparison and the addition of a
whole number of days. Identifiers (`UUID`) are modelled as `Nat`.
-/

namespace LoopGuard

/-- Values of the FollowUpStatus enumeration. -/
def followUpStatusValues : List String :=
  ["pending", "scheduled", "completed", "cancelled", "overdue"]

/-- Per-status allowed targets: the `valid_transitions` dictionary of
`FollowUpRecommendation.can_transition_to`, with the `.get(status, set())`
default of an empty set for a current status outside the table. -/
def valid_transitions (current : String) : List String :=
  if current = "pending" then ["scheduled", "completed", "cancelled"]
  else if current = "scheduled" then ["pending", "completed", "cancelled"]
  else if current = "completed" then ["pending"]
  else if current = "cancelled" then ["pending"]
  else if current = "overdue" then ["scheduled", "completed", "cancelled"]
  else []

/-- Follow-up recommendation entity (dataclass FollowUpRecommendation). -/
structure FollowUpRecommendation where
  id : Nat := 0
  report_id : Nat := 0
  patient_id : Nat := 0
  recommended_modality : String := ""
  body_region : String := ""
  reason : String := ""
  interval_months : Int := 0
  due_date : Option Int := none
  status : String := "pending"
  priority : String := "routine"
  assigned_to : Option Nat := none
  created_by : Option Nat := none
  created_at : Option Int := none
  updated_at : Option Int := none
deriving Repr, DecidableEq

/-- Method `calculate_due_date`: base date is the reference date, defaulting to
the current time; the due date is base plus `30 * interval_months` days, stored
on the entity and returned. -/
def calculate_due_date (f : FollowUpRecommendation)
    (reference_date : Option Int) (now : Int) : FollowUpRecommendation × Int :=
  let base_date := reference_date.getD now
  let due := base_date + 30 * f.interval_months
  ({ f with due_date := some due }, due)

/-- Method `is_overdue`: false without a due date, false in the completed or
cancelled status, otherwise true exactly when the current time is strictly
past the due date. -/
def is_overdue (f : FollowUpRecommendation) (now : Int) : Bool :=
  match f.due_date with
  | none => false
  | some due =>
    if f.status = "completed" ∨ f.status = "cancelled" then false
    else decide (due < now)

/-- Method `can_transition_to`: membership of the target in the
`valid_transitions` entry for the current status. -/
def can_transition_to (f : FollowUpRecommendation) (new_status : String) : Bool :=
  (valid_transitions f.status).contains new_status

/-- Method `update_status`: rejects an invalid transition with an error naming
the from and to statuses; otherwise sets the status and refreshes the
last-update timestamp to the current time. -/
def update_status (f : FollowUpRecommendation) (new_status : String) (now : Int) :
    Except String FollowUpRecommendation :=
  if can_transition_to f new_status then
    Except.ok { f with status := new_status, updated_at := some now }
  else
    Except.error ("Invalid status transition: " ++ f.status ++ " -> " ++ new_status)

/-- Transition table of the specification, as the list of (from, to) pairs it
allows. Written from the table in the spec, to be compared with
`can_transition_to` as embedded from the source. -/
def specAllowedPairs : List (String × String) :=
  [("pending", "scheduled"), ("pending", "completed"), ("pending", "cancelled"),
   ("scheduled", "pending"), ("scheduled", "completed"), ("scheduled", "cancelled"),
   ("completed", "pending"),
   ("cancelled", "pending"),
   ("overdue", "scheduled"), ("overdue", "completed"), ("overdue", "cancelled")]

/-- C1: can_transition_to accepts exactly the (current, target) pairs of the
transition table of the spec: pending to scheduled/completed/cancelled,
scheduled to pending/completed/cancelled, completed to pending only,
cancelled to pending only, overdue to scheduled/completed/cancelled; every
other pair, self-transitions included, is rejected, and a current status
outside the five enumerated values allows no transition at all. -/
theorem can_transition_to_iff_spec_table (f : FollowUpRecommendation) (t : String) :
    can_transition_to f t = true ↔ (f.status, t) ∈ specAllowedPairs := by
  unfold can_transition_to valid_transitions specAllowedPairs
  split_ifs with h1 h2 h3 h4 h5 <;>
    simp_all [Prod.ext_iff]

/-- Action record on a follow-up (dataclass FollowUpAction). The action type
is one of the ActionType enumeration values (created, status_changed,
note_added, assigned, reminder_sent). -/
structure FollowUpAction where
  id : Nat := 0
  recommendation_id : Nat := 0
  action_type : String := "note_added"
  previous_status : Option String := none
  new_status : Option String := none
  note : String := ""
  created_by : Nat := 0
  created_at : Int := 0
  ip_address : Option String := none
deriving Repr, DecidableEq

/-- Patient entity (dataclass Patient). Dates of birth and audit dates are
epoch days; sex is the string value of the Sex enumeration. -/
structure Patient where
  id : Nat := 0
  mrn : String := ""
  first_name : String := ""
  last_name : String := ""
  date_of_birth : Option Int := none
  sex : Option String := none
  created_at : Option Int := none
  updated_at : Option Int := none
deriving Repr, DecidableEq

/-- Construction of a Patient: the dataclass init assigns the fields and then
runs Patient.__post_init__, which raises exactly when the MRN is non-empty but
strips to the empty string. -/
def Patient.construct (id : Nat) (mrn first_name last_name : String)
    (date_of_birth : Option Int) (sex : Option String)
    (created_at updated_at : Option Int) : Except String Patient :=
  if mrn ≠ "" ∧ mrn.trim = "" then
    Except.error "MRN cannot be empty whitespace"
  else
    Except.ok ⟨id, mrn, first_name, last_name, date_of_birth, sex, created_at, updated_at⟩

/-- Construction of a FollowUpRecommendation: the dataclass init assigns the
fields; the class defines no __post_init__, so no field is validated and
construction always succeeds. -/
def FollowUpRecommendation.construct (id report_id patient_id : Nat)
    (recommended_modality body_region reason : String) (interval_months : Int)
    (due_date : Option Int) (status priority : String)
    (assigned_to created_by : Option Nat) (created_at updated_at : Option Int) :
    Except String FollowUpRecommendation :=
  Except.ok ⟨id, report_id, patient_id, recommended_modality, body_region, reason,
    interval_months, due_date, status, priority, assigned_to, created_by,
    created_at, updated_at⟩

/-- User entity (dataclass User); the role is one of the UserRole enumeration
values (radiologist, coordinator, admin). -/
structure User where
  id : Nat := 0
  supabase_user_id : String := ""
  email : String := ""
  display_name : String := ""
  role : String := "radiologist"
  site_id : Option Nat := none
  is_active : Bool := true
deriving Repr, DecidableEq

/-- Radiology report entity (dataclass RadiologyReport), the fields the
follow-up creation service reads. -/
structure RadiologyReport where
  id : Nat := 0
  study_id : Nat := 0
  radiologist_id : Nat := 0
  report_text : String := ""
  findings : String := ""
  impression : String := ""
  is_finalized : Bool := false
  finalized_at : Option Int := none
  created_at : Option Int := none
  updated_at : Option Int := none
deriving Repr, DecidableEq

/-- Days from year zero of the proleptic Gregorian calendar to the given civil
date (standard days-from-civil computation), used to read the concrete calendar
dates of the spec as day numbers compatible with the epoch-day model of
timestamps. -/
def dateToEpochDay (y m d : Nat) : Nat :=
  let yAdj := if m ≤ 2 then y - 1 else y
  let era := yAdj / 400
  let yoe := yAdj % 400
  let mp := (m + 9) % 12
  let doy := (153 * mp + 2) / 5 + d - 1
  let doe := yoe * 365 + yoe / 4 - yoe / 100 + doy
  era * 146097 + doe

/-- State of the follow-up repository: stored recommendations and the action
audit trail. The services below touch it only through the operations of the
FollowUpRepository interface. -/
structure FollowUpRepoState where
  followups : List FollowUpRecommendation := []
  actions : List FollowUpAction := []
deriving Repr, DecidableEq

/-- Interface operation get_by_id: the stored follow-up with the identifier,
when present. -/
def FollowUpRepoState.get_by_id (s : FollowUpRepoState) (followup_id : Nat) :
    Option FollowUpRecommendation :=
  s.followups.find? (fun f => f.id = followup_id)

/-- Interface operation save: create or update by identity (upsert). -/
def FollowUpRepoState.save (s : FollowUpRepoState) (f : FollowUpRecommendation) :
    FollowUpRepoState :=
  if s.followups.any (fun g => g.id = f.id) then
    { s with followups := s.followups.map (fun g => if g.id = f.id then f else g) }
  else
    { s with followups := s.followups ++ [f] }

/-- Interface operation add_action: append to the follow-up audit trail. -/
def FollowUpRepoState.add_action (s : FollowUpRepoState) (a : FollowUpAction) :
    FollowUpRepoState :=
  { s with actions := s.actions ++ [a] }

/-- Interface operation get_actions: the action history of one follow-up. -/
def FollowUpRepoState.get_actions (s : FollowUpRepoState) (followup_id : Nat) :
    List FollowUpAction :=
  s.actions.filter (fun a => a.recommendation_id = followup_id)

/-- Input DTO of the status-update use case. -/
structure UpdateStatusInput where
  followup_id : Nat
  new_status : String
  note : Option String := none
deriving Repr, DecidableEq

/-- Output DTO of the status-update use case. -/
structure UpdateStatusOutput where
  followup : FollowUpRecommendation
  previous_status : String
  action : FollowUpAction
deriving Repr, DecidableEq

/-- Result of one service execution: the returned value or the raised error,
the repository state afterwards, and how many audit-log records the execution
emitted through the audit logger. -/
structure ServiceRun (α : Type) where
  result : Except String α
  repo : FollowUpRepoState
  audit_log_calls : Nat

/-- UpdateFollowUpStatusService.execute: authorization check (audit-logged
failure), load by identifier, transition validation, then the domain update,
save, one appended action record, and one audit log. The fresh action
identifier and the clock are passed explicitly. -/
def updateFollowUpStatus_execute (repo : FollowUpRepoState)
    (inp : UpdateStatusInput) (user : User) (ip_address : String)
    (now : Int) (actionId : Nat) : ServiceRun UpdateStatusOutput :=
  if user.role = "coordinator" ∨ user.role = "admin" then
    match repo.get_by_id inp.followup_id with
    | none =>
      { result := Except.error ("Follow-up " ++ toString inp.followup_id ++ " not found"),
        repo := repo, audit_log_calls := 0 }
    | some followup =>
      if can_transition_to followup inp.new_status then
        let previous_status := followup.status
        match update_status followup inp.new_status now with
        | Except.error e =>
          { result := Except.error e, repo := repo, audit_log_calls := 0 }
        | Except.ok updated =>
          let repo1 := repo.save updated
          let action : FollowUpAction :=
            { id := actionId, recommendation_id := followup.id,
              action_type := "status_changed",
              previous_status := some previous_status,
              new_status := some inp.new_status,
              note := inp.note.getD "", created_by := user.id,
              created_at := now, ip_address := some ip_address }
          let repo2 := repo1.add_action action
          { result := Except.ok ⟨updated, previous_status, action⟩,
            repo := repo2, audit_log_calls := 1 }
      else
        { result := Except.error ("Cannot transition from " ++ followup.status
            ++ " to " ++ inp.new_status),
          repo := repo, audit_log_calls := 0 }
  else
    { result := Except.error "Only coordinators can update follow-up status",
      repo := repo, audit_log_calls := 1 }

/-- Input DTO of the follow-up creation use case. -/
structure CreateFollowUpInput where
  report_id : Nat
  recommended_modality : String
  body_region : String
  reason : String
  interval_months : Int
  priority : String := "routine"
deriving Repr, DecidableEq

/-- Output DTO of the follow-up creation use case. -/
structure CreateFollowUpOutput where
  followup : FollowUpRecommendation
  due_date : Int
deriving Repr, DecidableEq

/-- CreateFollowUpService.execute: authorization check (audit-logged failure),
report lookup, entity creation, due-date calculation from the report
finalization date (or now), save, one appended created-action record, and one
audit log. The fresh identifiers and the clock are passed explicitly. -/
def createFollowUp_execute (repo : FollowUpRepoState)
    (reports : List RadiologyReport) (inp : CreateFollowUpInput) (user : User)
    (ip_address : String) (now : Int) (newId actionId : Nat) :
    ServiceRun CreateFollowUpOutput :=
  if user.role = "radiologist" ∨ user.role = "admin" then
    match reports.find? (fun r => r.id = inp.report_id) with
    | none =>
      { result := Except.error ("Report " ++ toString inp.report_id ++ " not found"),
        repo := repo, audit_log_calls := 0 }
    | some report =>
      let followup : FollowUpRecommendation :=
        { id := newId, report_id := inp.report_id, patient_id := report.study_id,
          recommended_modality := inp.recommended_modality,
          body_region := inp.body_region, reason := inp.reason,
          interval_months := inp.interval_months, priority := inp.priority,
          created_by := some user.id, created_at := some now }
      let reference_date := report.finalized_at.getD now
      let calculated := calculate_due_date followup (some reference_date) now
      let repo1 := repo.save calculated.1
      let action : FollowUpAction :=
        { id := actionId, recommendation_id := calculated.1.id,
          action_type := "created", new_status := some calculated.1.status,
          note := "Created with " ++ toString inp.interval_months ++ " month interval",
          created_by := user.id, created_at := now, ip_address := some ip_address }
      let repo2 := repo1.add_action action
      { result := Except.ok ⟨calculated.1, calculated.2⟩,
        repo := repo2, audit_log_calls := 1 }
  else
    { result := Except.error "Only radiologists can create follow-up recommendations",
      repo := repo, audit_log_calls := 1 }

/-- Count of follow-ups by status (dataclass StatusBreakdown). -/
structure StatusBreakdown where
  pending : Nat := 0
  scheduled : Nat := 0
  completed : Nat := 0
  cancelled : Nat := 0
  overdue : Nat := 0
deriving Repr, DecidableEq

/-- Count of follow-ups by modality (dataclass ModalityBreakdown). -/
structure ModalityBreakdown where
  modality : String
  count : Nat
  completed_on_time : Nat
  completed_late : Nat
deriving Repr, DecidableEq

/-- Per-modality aggregate of the metrics service: the inner dictionary of
modality_counts, with the count, on_time and late tallies. -/
structure ModalityAgg where
  count : Nat
  on_time : Nat
  late : Nat
deriving Repr, DecidableEq

/-- Grouping key of the modality breakdown: the recommended modality, with the
empty string grouped as Unknown (the Python or-default). -/
def modalityKey (f : FollowUpRecommendation) : String :=
  if f.recommended_modality = "" then "Unknown" else f.recommended_modality

/-- One step of the modality_counts loop: insert the key with a zeroed
aggregate when absent, then increment only its count. The association list
keeps the first-seen key order of the Python dictionary. -/
def bumpCount (acc : List (String × ModalityAgg)) (mod : String) :
    List (String × ModalityAgg) :=
  match acc with
  | [] => [(mod, ⟨1, 0, 0⟩)]
  | (k, a) :: rest =>
    if k = mod then (k, { a with count := a.count + 1 }) :: rest
    else (k, a) :: bumpCount rest mod

/-- The modality_counts dictionary of GenerateMetricsService.execute after its
loop over all follow-ups. -/
def modality_counts (followups : List FollowUpRecommendation) :
    List (String × ModalityAgg) :=
  followups.foldl (fun acc f => bumpCount acc (modalityKey f)) []

/-- The modality_breakdown list of GenerateMetricsService.execute: one entry
per dictionary key, carrying its count, on_time and late tallies. -/
def modality_breakdown (followups : List FollowUpRecommendation) :
    List ModalityBreakdown :=
  (modality_counts followups).map (fun p => ⟨p.1, p.2.count, p.2.on_time, p.2.late⟩)

/-- Status loop of GenerateMetricsService.execute: tallies the status
breakdown, the completed-on-time and completed-late counters (a completed
follow-up with both timestamps set counts as on time when its last update is
not after its due date), and the overdue count via is_overdue. -/
def statusTally (followups : List FollowUpRecommendation) (now : Int) :
    StatusBreakdown × Nat × Nat :=
  followups.foldl (fun acc f =>
    let sb := acc.1
    let on_time := acc.2.1
    let late := acc.2.2
    let step : StatusBreakdown × Nat × Nat :=
      if f.status = "pending" then ({ sb with pending := sb.pending + 1 }, on_time, late)
      else if f.status = "scheduled" then
        ({ sb with scheduled := sb.scheduled + 1 }, on_time, late)
      else if f.status = "completed" then
        match f.updated_at, f.due_date with
        | some u, some d =>
          if u ≤ d then ({ sb with completed := sb.completed + 1 }, on_time + 1, late)
          else ({ sb with completed := sb.completed + 1 }, on_time, late + 1)
        | _, _ => ({ sb with completed := sb.completed + 1 }, on_time, late)
      else if f.status = "cancelled" then
        ({ sb with cancelled := sb.cancelled + 1 }, on_time, late)
      else (sb, on_time, late)
    let sb2 := step.1
    if is_overdue f now then
      ({ sb2 with overdue := sb2.overdue + 1 }, step.2.1, step.2.2)
    else step)
    (⟨{}, 0, 0⟩)

/-- Output DTO of the metrics use case (the integer fields; the two rounded
floating-point rate fields of the source are outside the model). -/
structure MetricsOutput where
  total_followups : Nat
  total_completed : Nat
  total_overdue : Nat
  status_breakdown : StatusBreakdown
  modality_breakdown : List ModalityBreakdown
deriving Repr, DecidableEq

/-- GenerateMetricsService.execute on the worklist the repository returned:
the status loop, the modality grouping, one audit log, and the assembled
output. The service has no failure path (authorization sits in the API
layer). -/
def generateMetrics_execute (followups : List FollowUpRecommendation)
    (now : Int) : MetricsOutput × Nat :=
  let tally := statusTally followups now
  ({ total_followups := followups.length,
     total_completed := tally.1.completed,
     total_overdue := tally.1.overdue,
     status_breakdown := tally.1,
     modality_breakdown := modality_breakdown followups }, 1)

/-- Entry points of the action store of the FollowUpRepository interface:
add_action (append) and get_actions (read). The interface declares no update
and no delete operation on actions. -/
inductive ActionStoreOp where
  | add_action : FollowUpAction → ActionStoreOp
  | get_actions : Nat → ActionStoreOp
deriving Repr, DecidableEq

/-- Effect of one action-store entry point on the stored action trail:
add_action appends, get_actions reads and leaves the trail as it is. -/
def applyActionOp (trail : List FollowUpAction) (op : ActionStoreOp) :
    List FollowUpAction :=
  match op with
  | ActionStoreOp.add_action a => trail ++ [a]
  | ActionStoreOp.get_actions _ => trail

/-- Action trail after a sequence of calls through the interface. -/
def runActionOps (trail : List FollowUpAction) (ops : List ActionStoreOp) :
    List FollowUpAction :=
  ops.foldl applyActionOp trail

/-- Chain of update_status calls on one recommendation: each step carries the
target status and the clock at the call; the chain stops at the first invalid
transition. -/
def run_updates (f : FollowUpRecommendation) (steps : List (String × Int)) :
    Option FollowUpRecommendation :=
  match steps with
  | [] => some f
  | (target, now) :: rest =>
    match update_status f target now with
    | Except.error _ => none
    | Except.ok f2 => run_updates f2 rest

/-- Helper: a successful update_status call is exactly a call whose transition
the table allows, and it returns the entity with the new status and the
refreshed timestamp, everything else untouched. -/
theorem update_status_ok_iff (f f2 : FollowUpRecommendation) (t : String) (now : Int) :
    update_status f t now = Except.ok f2 ↔
      (can_transition_to f t = true ∧
        f2 = { f with status := t, updated_at := some now }) := by
  unfold update_status
  split
  · rename_i hc
    constructor
    · intro h
      cases h
      exact ⟨hc, rfl⟩
    · intro h
      rw [h.2]
  · rename_i hc
    constructor
    · intro h
      cases h
    · intro h
      exact absurd h.1 (by simpa using hc)

/-- Helper: the save operation touches only the stored recommendations, never
the action trail. -/
theorem save_actions_untouched (s : FollowUpRepoState) (f : FollowUpRecommendation) :
    (s.save f).actions = s.actions := by
  unfold FollowUpRepoState.save
  split <;> rfl

/-- C2: a status update to a target the transition table rejects fails: the
entity method returns the invalid-transition error naming the from and to
statuses, the status-update service raises before any write, the repository
state is completely unchanged (so the stored recommendation keeps its status
and last-update timestamp), and no FollowUpAction record is produced. -/
theorem invalid_transition_rejected (repo : FollowUpRepoState)
    (inp : UpdateStatusInput) (user : User) (ip : String) (now : Int)
    (actionId : Nat) (f : FollowUpRecommendation)
    (hrole : user.role = "coordinator" ∨ user.role = "admin")
    (hfind : repo.get_by_id inp.followup_id = some f)
    (hcan : can_transition_to f inp.new_status = false) :
    update_status f inp.new_status now =
      Except.error ("Invalid status transition: " ++ f.status ++ " -> " ++ inp.new_status) ∧
    (updateFollowUpStatus_execute repo inp user ip now actionId).result =
      Except.error ("Cannot transition from " ++ f.status ++ " to " ++ inp.new_status) ∧
    (updateFollowUpStatus_execute repo inp user ip now actionId).repo = repo := by
  have hexec : updateFollowUpStatus_execute repo inp user ip now actionId =
      { result := Except.error ("Cannot transition from " ++ f.status
          ++ " to " ++ inp.new_status),
        repo := repo, audit_log_calls := 0 } := by
    unfold updateFollowUpStatus_execute
    rw [if_pos hrole, hfind]
    simp [hcan]
  refine ⟨?_, ?_, ?_⟩
  · simp [update_status, hcan]
  · rw [hexec]
  · rw [hexec]

/-- Witness for C2: a stored completed recommendation, a coordinator, and the
rejected target scheduled leave the repository exactly as it was and surface
the transition error. -/
theorem invalid_transition_rejected_witness :
    (updateFollowUpStatus_execute
        { followups := [{ id := 1, status := "completed" }], actions := [] }
        { followup_id := 1, new_status := "scheduled" }
        { id := 7, role := "coordinator" } "" 5 9).repo =
      { followups := [{ id := 1, status := "completed" }], actions := [] } := by
  exact (invalid_transition_rejected
    { followups := [{ id := 1, status := "completed" }], actions := [] }
    { followup_id := 1, new_status := "scheduled" }
    { id := 7, role := "coordinator" } "" 5 9
    { id := 1, status := "completed" }
    (Or.inl rfl) (by decide) (by decide)).2.2

/-- C3: a status update to a target the transition table allows succeeds: the
entity takes the target status with the refreshed last-update timestamp (a
strictly later one whenever the clock moved forward), all other fields are
kept, and the service appends exactly one FollowUpAction for that
recommendation, of action type status_changed, carrying the prior status as
previous_status and the target as new_status. -/
theorem valid_transition_updates_and_records (repo : FollowUpRepoState)
    (inp : UpdateStatusInput) (user : User) (ip : String) (now : Int)
    (actionId : Nat) (f : FollowUpRecommendation)
    (hrole : user.role = "coordinator" ∨ user.role = "admin")
    (hfind : repo.get_by_id inp.followup_id = some f)
    (hcan : can_transition_to f inp.new_status = true) :
    ∃ out : UpdateStatusOutput,
      (updateFollowUpStatus_execute repo inp user ip now actionId).result =
        Except.ok out ∧
      out.followup = { f with status := inp.new_status, updated_at := some now } ∧
      out.previous_status = f.status ∧
      out.action.action_type = "status_changed" ∧
      out.action.previous_status = some f.status ∧
      out.action.new_status = some inp.new_status ∧
      out.action.recommendation_id = f.id ∧
      (updateFollowUpStatus_execute repo inp user ip now actionId).repo.actions =
        repo.actions ++ [out.action] ∧
      (∀ prev, f.updated_at = some prev → prev < now →
        ∃ t2, out.followup.updated_at = some t2 ∧ prev < t2) ∧
      update_status f inp.new_status now =
        Except.ok { f with status := inp.new_status, updated_at := some now } := by
  have hup : update_status f inp.new_status now =
      Except.ok { f with status := inp.new_status, updated_at := some now } := by
    simp [update_status, hcan]
  have hexec : updateFollowUpStatus_execute repo inp user ip now actionId =
      { result := Except.ok
          ⟨{ f with status := inp.new_status, updated_at := some now }, f.status,
            { id := actionId, recommendation_id := f.id,
              action_type := "status_changed",
              previous_status := some f.status,
              new_status := some inp.new_status,
              note := inp.note.getD "", created_by := user.id,
              created_at := now, ip_address := some ip }⟩,
        repo := (repo.save { f with
                    status := inp.new_status,
                    updated_at := some now }).add_action
          { id := actionId, recommendation_id := f.id,
            action_type := "status_changed",
            previous_status := some f.status,
            new_status := some inp.new_status,
            note := inp.note.getD "", created_by := user.id,
            created_at := now, ip_address := some ip },
        audit_log_calls := 1 } := by
    unfold updateFollowUpStatus_execute
    rw [if_pos hrole, hfind]
    simp only [hcan, if_pos, hup]
  refine ⟨⟨{ f with status := inp.new_status, updated_at := some now }, f.status,
      { id := actionId, recommendation_id := f.id, action_type := "status_changed",
        previous_status := some f.status, new_status := some inp.new_status,
        note := inp.note.getD "", created_by := user.id, created_at := now,
        ip_address := some ip }⟩, ?_, rfl, rfl, rfl, rfl, rfl, rfl, ?_, ?_, hup⟩
  · rw [hexec]
  · rw [hexec]
    simp [FollowUpRepoState.add_action, save_actions_untouched]
  · intro prev _ hlt
    exact ⟨now, rfl, hlt⟩

/-- Witness for C3: a stored pending recommendation moved to scheduled by a
coordinator leaves exactly one new status_changed action in the trail. -/
theorem valid_transition_updates_and_records_witness :
    (updateFollowUpStatus_execute
        { followups := [{ id := 1, status := "pending" }], actions := [] }
        { followup_id := 1, new_status := "scheduled" }
        { id := 7, role := "coordinator" } "" 10 9).repo.actions.length = 1 := by
  obtain ⟨out, -, -, -, -, -, -, -, hact, -, -⟩ :=
    valid_transition_updates_and_records
      { followups := [{ id := 1, status := "pending" }], actions := [] }
      { followup_id := 1, new_status := "scheduled" }
      { id := 7, role := "coordinator" } "" 10 9
      { id := 1, status := "pending" }
      (Or.inl rfl) (by decide) (by decide)
  rw [hact]
  rfl

/-- C4: is_overdue is false without a due date whatever the status, false in
the completed and cancelled statuses however far past the due date lies, and
otherwise true exactly when the current time is strictly past the due date;
as a pure function of the entity and the clock it mutates nothing. -/
theorem is_overdue_spec (f : FollowUpRecommendation) (now : Int) :
    (f.due_date = none → is_overdue f now = false) ∧
    ((f.status = "completed" ∨ f.status = "cancelled") → is_overdue f now = false) ∧
    (∀ due, f.due_date = some due → f.status ≠ "completed" → f.status ≠ "cancelled" →
      (is_overdue f now = true ↔ due < now)) := by
  refine ⟨?_, ?_, ?_⟩
  · intro h
    simp [is_overdue, h]
  · intro h
    cases hd : f.due_date with
    | none => simp [is_overdue, hd]
    | some due => simp [is_overdue, hd, h]
  · intro due hd h1 h2
    simp [is_overdue, hd, h1, h2]

/-- Witness for C4: a completed recommendation a hundred days past due is not
overdue, while a pending one two days past due is. -/
theorem is_overdue_spec_witness :
    is_overdue { status := "completed", due_date := some 0 } 100 = false ∧
    is_overdue { status := "pending", due_date := some 5 } 7 = true := by
  constructor
  · exact (is_overdue_spec { status := "completed", due_date := some 0 } 100).2.1
      (Or.inl rfl)
  · exact ((is_overdue_spec { status := "pending", due_date := some 5 } 7).2.2 5 rfl
      (by decide) (by decide)).mpr (by decide)

/-- C5: calculate_due_date returns the reference date plus 30 times the
interval in days, stores that value in the due_date field, and falls back to
the current time when no reference date is given; on the calendar, three
months from 2024-01-01 land on 2024-03-31 and six months from 2024-06-01 land
on 2024-11-28. -/
theorem calculate_due_date_spec (f : FollowUpRecommendation) (ref now : Int) :
    (calculate_due_date f (some ref) now).2 = ref + 30 * f.interval_months ∧
    (calculate_due_date f (some ref) now).1 =
      { f with due_date := some (ref + 30 * f.interval_months) } ∧
    (calculate_due_date f none now).2 = now + 30 * f.interval_months ∧
    (calculate_due_date f none now).1.due_date =
      some (now + 30 * f.interval_months) ∧
    (calculate_due_date { interval_months := 3 }
        (some ((dateToEpochDay 2024 1 1 : Nat) : Int)) 0).2 =
      ((dateToEpochDay 2024 3 31 : Nat) : Int) ∧
    (calculate_due_date { interval_months := 6 }
        (some ((dateToEpochDay 2024 6 1 : Nat) : Int)) 0).2 =
      ((dateToEpochDay 2024 11 28 : Nat) : Int) := by
  refine ⟨rfl, rfl, rfl, rfl, by decide, by decide⟩

/-- C6: the action store of the repository interface is append-only: through
its only two entry points, add_action and get_actions, any sequence of calls
leaves every previously written action record in place, unmodified and in
order, only ever appending new records after them. -/
theorem action_trail_append_only (trail : List FollowUpAction)
    (ops : List ActionStoreOp) :
    ∃ added, runActionOps trail ops = trail ++ added := by
  induction ops generalizing trail with
  | nil => exact ⟨[], by simp [runActionOps]⟩
  | cons op rest ih =>
    cases op with
    | add_action a =>
      obtain ⟨added, h⟩ := ih (trail ++ [a])
      refine ⟨[a] ++ added, ?_⟩
      simp only [runActionOps, List.foldl_cons, applyActionOp] at h ⊢
      rw [h, List.append_assoc]
    | get_actions i =>
      obtain ⟨added, h⟩ := ih trail
      exact ⟨added, by simpa [runActionOps, applyActionOp] using h⟩

/-- C7 counterexample: constructing a Patient with a blank (empty) medical
record number succeeds and produces the entity, and constructing a
FollowUpRecommendation with every field blank succeeds as well, so a blank
required identifier does not fail construction. -/
theorem blank_identifier_accepted :
    Patient.construct 1 "" "Ada" "Lovelace" none none none none =
      Except.ok { id := 1, mrn := "", first_name := "Ada", last_name := "Lovelace" } ∧
    FollowUpRecommendation.construct 1 0 0 "" "" "" 0 none "" "" none none none none =
      Except.ok { id := 1, recommended_modality := "", body_region := "",
                  reason := "", interval_months := 0, status := "", priority := "" } := by
  constructor <;> rfl

/-- C7 amended: entity construction validates only the one implemented check:
Patient construction fails exactly when the MRN is non-empty but consists of
whitespace alone; a blank (empty) MRN is accepted, and FollowUpRecommendation
construction performs no validation and always produces the entity. -/
theorem construction_validation_exact (id : Nat) (mrn fn ln : String)
    (dob : Option Int) (sx : Option String) (ca ua : Option Int) :
    ((∃ msg, Patient.construct id mrn fn ln dob sx ca ua = Except.error msg) ↔
      (mrn ≠ "" ∧ mrn.trim = "")) ∧
    (∀ (i r p : Nat) (m b re : String) (im : Int) (dd : Option Int)
       (st pr : String) (ass cb : Option Nat) (cat uat : Option Int),
      FollowUpRecommendation.construct i r p m b re im dd st pr ass cb cat uat =
        Except.ok ⟨i, r, p, m, b, re, im, dd, st, pr, ass, cb, cat, uat⟩) := by
  constructor
  · unfold Patient.construct
    by_cases h : mrn ≠ "" ∧ mrn.trim = ""
    · rw [if_pos h]
      exact ⟨fun _ => h, fun _ => ⟨"MRN cannot be empty whitespace", rfl⟩⟩
    · rw [if_neg h]
      simp [h]
  · intro i r p m b re im dd st pr ass cb cat uat
    rfl

/-- Helper: no entry of the transition table is the overdue status. -/
theorem valid_transitions_target_ne_overdue (c t : String)
    (h : (valid_transitions c).contains t = true) : t ≠ "overdue" := by
  intro ht
  subst ht
  unfold valid_transitions at h
  split_ifs at h <;> simp_all

/-- C9: overdue is never the result of a transition: no status the table
allows as a target is overdue, so along any chain of successful update_status
calls, from any starting entity, the status field never becomes overdue. -/
theorem overdue_never_transition_target :
    (∀ (f : FollowUpRecommendation) (t : String),
      can_transition_to f t = true → t ≠ "overdue") ∧
    (∀ (steps : List (String × Int)) (f f2 : FollowUpRecommendation),
      steps ≠ [] → run_updates f steps = some f2 → f2.status ≠ "overdue") := by
  have key : ∀ (f : FollowUpRecommendation) (t : String),
      can_transition_to f t = true → t ≠ "overdue" := by
    intro f t h
    exact valid_transitions_target_ne_overdue f.status t h
  refine ⟨key, ?_⟩
  intro steps
  induction steps with
  | nil =>
    intro f f2 hne
    exact absurd rfl hne
  | cons s rest ih =>
    intro f f2 _ hrun
    obtain ⟨target, clock⟩ := s
    simp only [run_updates] at hrun
    cases hup : update_status f target clock with
    | error e =>
      rw [hup] at hrun
      cases hrun
    | ok f1 =>
      rw [hup] at hrun
      obtain ⟨hcan, hf1⟩ := (update_status_ok_iff f f1 target clock).mp hup
      cases rest with
      | nil =>
        simp only [run_updates, Option.some.injEq] at hrun
        rw [← hrun, hf1]
        exact key f target hcan
      | cons s2 rest2 =>
        exact ih f1 f2 (by simp) hrun

/-- Witness for C9: a pending recommendation pushed through the valid chain
scheduled then cancelled ends with the status cancelled, not overdue. -/
theorem overdue_never_transition_target_witness :
    ({ status := "cancelled", updated_at := some 2 } : FollowUpRecommendation).status ≠
      "overdue" := by
  exact overdue_never_transition_target.2 [("scheduled", 1), ("cancelled", 2)]
    { status := "pending" } { status := "cancelled", updated_at := some 2 }
    (by simp) (by decide)

/-- C8 counterexample: a status-update execution that fails on an invalid
transition (a stored completed recommendation, a coordinator, target
scheduled) emits zero audit-log records, not one. -/
theorem failed_update_emits_no_audit_log :
    (updateFollowUpStatus_execute
        { followups := [{ id := 1, status := "completed" }], actions := [] }
        { followup_id := 1, new_status := "scheduled" }
        { id := 7, role := "coordinator" } "" 5 9).audit_log_calls = 0 ∧
    (updateFollowUpStatus_execute
        { followups := [{ id := 1, status := "completed" }], actions := [] }
        { followup_id := 1, new_status := "scheduled" }
        { id := 7, role := "coordinator" } "" 5 9).result =
      Except.error "Cannot transition from completed to scheduled" := by
  constructor <;> rfl

/-- C8 amended: the audit logger is called exactly once on every successful
execution of the creation, status-update and metrics use cases and on their
permission-denied failures, but zero times when the status update fails on a
missing follow-up or an invalid transition and when the creation fails on a
missing report; the metrics use case itself has no failure path. -/
theorem audit_log_calls_by_path :
    (∀ (repo : FollowUpRepoState) (inp : UpdateStatusInput) (user : User)
       (ip : String) (now : Int) (actionId : Nat),
      ¬ (user.role = "coordinator" ∨ user.role = "admin") →
      (updateFollowUpStatus_execute repo inp user ip now actionId).audit_log_calls = 1) ∧
    (∀ (repo : FollowUpRepoState) (inp : UpdateStatusInput) (user : User)
       (ip : String) (now : Int) (actionId : Nat),
      (user.role = "coordinator" ∨ user.role = "admin") →
      repo.get_by_id inp.followup_id = none →
      (updateFollowUpStatus_execute repo inp user ip now actionId).audit_log_calls = 0) ∧
    (∀ (repo : FollowUpRepoState) (inp : UpdateStatusInput) (user : User)
       (ip : String) (now : Int) (actionId : Nat) (f : FollowUpRecommendation),
      (user.role = "coordinator" ∨ user.role = "admin") →
      repo.get_by_id inp.followup_id = some f →
      can_transition_to f inp.new_status = false →
      (updateFollowUpStatus_execute repo inp user ip now actionId).audit_log_calls = 0) ∧
    (∀ (repo : FollowUpRepoState) (inp : UpdateStatusInput) (user : User)
       (ip : String) (now : Int) (actionId : Nat) (f : FollowUpRecommendation),
      (user.role = "coordinator" ∨ user.role = "admin") →
      repo.get_by_id inp.followup_id = some f →
      can_transition_to f inp.new_status = true →
      (updateFollowUpStatus_execute repo inp user ip now actionId).audit_log_calls = 1) ∧
    (∀ (repo : FollowUpRepoState) (reports : List RadiologyReport)
       (inp : CreateFollowUpInput) (user : User) (ip : String) (now : Int)
       (newId actionId : Nat),
      ¬ (user.role = "radiologist" ∨ user.role = "admin") →
      (createFollowUp_execute repo reports inp user ip now newId actionId).audit_log_calls
        = 1) ∧
    (∀ (repo : FollowUpRepoState) (reports : List RadiologyReport)
       (inp : CreateFollowUpInput) (user : User) (ip : String) (now : Int)
       (newId actionId : Nat),
      (user.role = "radiologist" ∨ user.role = "admin") →
      reports.find? (fun r => r.id = inp.report_id) = none →
      (createFollowUp_execute repo reports inp user ip now newId actionId).audit_log_calls
        = 0) ∧
    (∀ (repo : FollowUpRepoState) (reports : List RadiologyReport)
       (inp : CreateFollowUpInput) (user : User) (ip : String) (now : Int)
       (newId actionId : Nat) (report : RadiologyReport),
      (user.role = "radiologist" ∨ user.role = "admin") →
      reports.find? (fun r => r.id = inp.report_id) = some report →
      (createFollowUp_execute repo reports inp user ip now newId actionId).audit_log_calls
        = 1) ∧
    (∀ (followups : List FollowUpRecommendation) (now : Int),
      (generateMetrics_execute followups now).2 = 1) := by
  refine ⟨?_, ?_, ?_, ?_, ?_, ?_, ?_, ?_⟩
  · intro repo inp user ip now actionId hrole
    unfold updateFollowUpStatus_execute
    rw [if_neg hrole]
  · intro repo inp user ip now actionId hrole hfind
    unfold updateFollowUpStatus_execute
    rw [if_pos hrole, hfind]
  · intro repo inp user ip now actionId f hrole hfind hcan
    unfold updateFollowUpStatus_execute
    rw [if_pos hrole, hfind]
    simp [hcan]
  · intro repo inp user ip now actionId f hrole hfind hcan
    unfold updateFollowUpStatus_execute
    rw [if_pos hrole, hfind]
    simp [hcan, update_status]
  · intro repo reports inp user ip now newId actionId hrole
    unfold createFollowUp_execute
    rw [if_neg hrole]
  · intro repo reports inp user ip now newId actionId hrole hfind
    unfold createFollowUp_execute
    rw [if_pos hrole, hfind]
  · intro repo reports inp user ip now newId actionId report hrole hfind
    unfold createFollowUp_execute
    rw [if_pos hrole, hfind]
  · intro followups now
    rfl

/-- Witness for C8: a status update against an empty repository fails on the
missing follow-up with zero audit-log records, while a metrics run over an
empty worklist emits exactly one. -/
theorem audit_log_calls_by_path_witness :
    (updateFollowUpStatus_execute { followups := [], actions := [] }
        { followup_id := 1, new_status := "scheduled" }
        { id := 7, role := "admin" } "" 5 9).audit_log_calls = 0 ∧
    (generateMetrics_execute [] 0).2 = 1 := by
  constructor
  · exact audit_log_calls_by_path.2.1 { followups := [], actions := [] }
      { followup_id := 1, new_status := "scheduled" }
      { id := 7, role := "admin" } "" 5 9 (Or.inr rfl) (by decide)
  · exact audit_log_calls_by_path.2.2.2.2.2.2.2 [] 0

/-- Lookup of a key in the modality dictionary (first matching entry). -/
def findAgg (acc : List (String × ModalityAgg)) (m : String) : Option ModalityAgg :=
  match acc with
  | [] => none
  | (k, a) :: rest => if k = m then some a else findAgg rest m

/-- Count carried by an optional aggregate, zero when absent. -/
def aggCount (o : Option ModalityAgg) : Nat :=
  match o with
  | none => 0
  | some a => a.count

/-- Helper: bumping a key inserts it with count one or increments its count. -/
theorem findAgg_bumpCount_self (acc : List (String × ModalityAgg)) (mod : String) :
    findAgg (bumpCount acc mod) mod =
      some (match findAgg acc mod with
            | none => ⟨1, 0, 0⟩
            | some a => { a with count := a.count + 1 }) := by
  induction acc with
  | nil => simp [bumpCount, findAgg]
  | cons p rest ih =>
    obtain ⟨k, a⟩ := p
    by_cases hk : k = mod
    · subst hk
      simp [bumpCount, findAgg]
    · simp [bumpCount, findAgg, hk, ih]

/-- Helper: bumping one key leaves the lookup of every other key unchanged. -/
theorem findAgg_bumpCount_ne (acc : List (String × ModalityAgg)) (mod m : String)
    (hne : m ≠ mod) : findAgg (bumpCount acc mod) m = findAgg acc m := by
  have hsymm : ¬ mod = m := fun h => hne h.symm
  induction acc with
  | nil => simp [bumpCount, findAgg, hsymm]
  | cons p rest ih =>
    obtain ⟨k, a⟩ := p
    by_cases hk : k = mod
    · subst hk
      simp [bumpCount, findAgg, hsymm]
    · by_cases hm : k = m
      · subst hm
        simp [bumpCount, findAgg, hk]
      · simp [bumpCount, findAgg, hk, hm, ih]

/-- Helper: every key of the bumped dictionary is an old key or the bumped
one. -/
theorem mem_keys_bumpCount (acc : List (String × ModalityAgg)) (mod x : String)
    (h : x ∈ (bumpCount acc mod).map Prod.fst) :
    x ∈ acc.map Prod.fst ∨ x = mod := by
  induction acc with
  | nil =>
    simp [bumpCount] at h
    exact Or.inr h
  | cons p rest ih =>
    obtain ⟨k, a⟩ := p
    by_cases hk : k = mod
    · subst hk
      simp [bumpCount] at h
      simpa using Or.inl h
    · simp only [bumpCount, if_neg hk, List.map_cons, List.mem_cons] at h
      rcases h with h | h
      · exact Or.inl (by simp [h])
      · rcases ih h with h2 | h2
        · exact Or.inl (by simp [h2])
        · exact Or.inr h2

/-- Helper: bumping a key keeps the dictionary keys duplicate-free. -/
theorem bumpCount_keys_nodup (acc : List (String × ModalityAgg)) (mod : String)
    (h : (acc.map Prod.fst).Nodup) : ((bumpCount acc mod).map Prod.fst).Nodup := by
  induction acc with
  | nil => simp [bumpCount]
  | cons p rest ih =>
    obtain ⟨k, a⟩ := p
    simp only [List.map_cons, List.nodup_cons] at h
    by_cases hk : k = mod
    · subst hk
      simpa [bumpCount, List.nodup_cons] using h
    · simp only [bumpCount, if_neg hk, List.map_cons, List.nodup_cons]
      refine ⟨?_, ih h.2⟩
      intro hmem
      rcases mem_keys_bumpCount rest mod k hmem with h2 | h2
      · exact h.1 h2
      · exact hk h2

/-- Helper: the metrics grouping loop keeps the dictionary keys
duplicate-free. -/
theorem fold_keys_nodup (fs : List FollowUpRecommendation) :
    ∀ acc : List (String × ModalityAgg), (acc.map Prod.fst).Nodup →
      ((fs.foldl (fun acc f => bumpCount acc (modalityKey f)) acc).map Prod.fst).Nodup := by
  induction fs with
  | nil => intro acc h; simpa using h
  | cons f rest ih =>
    intro acc h
    exact ih _ (bumpCount_keys_nodup acc (modalityKey f) h)

/-- Helper: in a dictionary with duplicate-free keys, membership of an entry
is exactly a successful lookup. -/
theorem findAgg_of_mem (acc : List (String × ModalityAgg))
    (h : (acc.map Prod.fst).Nodup) (k : String) (a : ModalityAgg)
    (hmem : (k, a) ∈ acc) : findAgg acc k = some a := by
  induction acc with
  | nil => cases hmem
  | cons p rest ih =>
    obtain ⟨k0, a0⟩ := p
    simp only [List.map_cons, List.nodup_cons] at h
    rcases List.mem_cons.mp hmem with heq | hmem2
    · cases heq
      simp [findAgg]
    · by_cases hk : k0 = k
      · subst hk
        exact absurd (by simpa using List.mem_map_of_mem Prod.fst hmem2) h.1
      · simp only [findAgg, if_neg hk]
        exact ih h.2 hmem2

/-- Helper: after the grouping loop, the count under each key has grown by
exactly the number of processed follow-ups carrying that key. -/
theorem findAgg_modality_fold (fs : List FollowUpRecommendation) :
    ∀ (acc : List (String × ModalityAgg)) (m : String),
      aggCount (findAgg (fs.foldl (fun acc f => bumpCount acc (modalityKey f)) acc) m) =
        aggCount (findAgg acc m) +
          (fs.filter (fun f => modalityKey f = m)).length := by
  induction fs with
  | nil => intro acc m; simp
  | cons f rest ih =>
    intro acc m
    simp only [List.foldl_cons, List.filter_cons]
    by_cases hm : modalityKey f = m
    · subst hm
      rw [ih]
      have hbump : aggCount (findAgg (bumpCount acc (modalityKey f)) (modalityKey f)) =
          aggCount (findAgg acc (modalityKey f)) + 1 := by
        rw [findAgg_bumpCount_self]
        cases hfa : findAgg acc (modalityKey f) <;> simp [aggCount]
      rw [hbump]
      simp
      omega
    · rw [ih, findAgg_bumpCount_ne acc (modalityKey f) m (fun h => hm h.symm)]
      simp [hm]

/-- Helper: after the grouping loop over an initially empty dictionary, every
stored aggregate still carries zero in its on-time and late tallies. -/
theorem findAgg_fold_zeros (fs : List FollowUpRecommendation) :
    ∀ acc : List (String × ModalityAgg),
      (∀ m a, findAgg acc m = some a → a.on_time = 0 ∧ a.late = 0) →
      ∀ m a,
        findAgg (fs.foldl (fun acc f => bumpCount acc (modalityKey f)) acc) m = some a →
        a.on_time = 0 ∧ a.late = 0 := by
  induction fs with
  | nil =>
    intro acc h
    simpa using h
  | cons f rest ih =>
    intro acc hacc
    refine ih _ ?_
    intro m a hfa
    by_cases hm : m = modalityKey f
    · subst hm
      rw [findAgg_bumpCount_self] at hfa
      cases hx : findAgg acc (modalityKey f) with
      | none =>
        rw [hx] at hfa
        cases hfa
        exact ⟨rfl, rfl⟩
      | some b =>
        rw [hx] at hfa
        cases hfa
        simpa using hacc (modalityKey f) b hx
    · rw [findAgg_bumpCount_ne acc (modalityKey f) m hm] at hfa
      exact hacc m a hfa

/-- C10: every entry of the modality breakdown the metrics service returns has
a zero completed-on-time and a zero completed-late tally (the per-modality
tallies start at zero and are never incremented), while its count equals the
number of follow-ups whose grouping key (recommended modality, a blank one
grouped as Unknown) is the modality of the entry. -/
theorem modality_breakdown_zero_tallies (fs : List FollowUpRecommendation)
    (now : Int) (e : ModalityBreakdown)
    (he : e ∈ (generateMetrics_execute fs now).1.modality_breakdown) :
    e.completed_on_time = 0 ∧ e.completed_late = 0 ∧
    e.count = (fs.filter (fun f => modalityKey f = e.modality)).length := by
  have he2 : e ∈ modality_breakdown fs := by
    simpa [generateMetrics_execute] using he
  obtain ⟨⟨k, a⟩, hmem, hmap⟩ := List.mem_map.mp he2
  have hdef : modality_counts fs =
      fs.foldl (fun acc f => bumpCount acc (modalityKey f)) [] := rfl
  have hnodup : ((modality_counts fs).map Prod.fst).Nodup := by
    rw [hdef]
    exact fold_keys_nodup fs [] (by simp)
  have hfind : findAgg (modality_counts fs) k = some a :=
    findAgg_of_mem _ hnodup k a hmem
  have hz : a.on_time = 0 ∧ a.late = 0 := by
    refine findAgg_fold_zeros fs [] ?_ k a (by rw [← hdef]; exact hfind)
    intro m a2 h
    cases h
  have hc := findAgg_modality_fold fs [] k
  rw [← hdef, hfind] at hc
  simp only [findAgg, aggCount] at hc
  cases hmap
  exact ⟨hz.1, hz.2, by simpa using hc⟩

/-- Witness for C10: over three follow-ups, two CT and one with a blank
modality, the CT entry of the breakdown counts two with zero on-time and zero
late. -/
theorem modality_breakdown_zero_tallies_witness :
    (2 : Nat) =
      (([{ recommended_modality := "CT" }, { recommended_modality := "" },
         { recommended_modality := "CT" }] :
            List FollowUpRecommendation).filter
          (fun f => modalityKey f = "CT")).length := by
  exact (modality_breakdown_zero_tallies
    [{ recommended_modality := "CT" }, { recommended_modality := "" },
     { recommended_modality := "CT" }] 0
    ⟨"CT", 2, 0, 0⟩ (by decide)).2.2

end LoopGuard
